import Mathlib

/-!
Verification of the PrinterManagementSystem ingestion / query / aggregation
core (`src/backend/server.js`, schema in `src/init.sql`), shallowly embedded.

Timestamps are modelled as `Nat`, SQL integers as `Int`, nullable SQL values
as `Option`.  The `ORDER BY` clauses of the source carry no tie-break key, so
a query's row order is modelled as a *relation* (any permutation of the
matching rows that is sorted by the ordering key), mirroring PostgreSQL's
freedom on ties.
-/

namespace PrintMonitor

/-- A request body for `POST /api/print-jobs` (`req.body` destructuring in
`server.js`).  Absent JSON fields arrive as `undefined`, which the `pg`
driver sends as SQL `NULL`; both are modelled as `none`. -/
structure JobReport where
  jobId : Option String
  userName : Option String
  machineName : Option String
  printerName : Option String
  documentName : Option String
  pageCount : Option Int
  printTime : Option Nat
  status : Option String
  fileSize : Option Int
  deriving DecidableEq, Repr

/-- A row of the `print_jobs` table (`init.sql`): `user_name`,
`machine_name`, `printer_name` are `NOT NULL`; `page_count`, `status`,
`file_size` are nullable (their SQL `DEFAULT` only applies when the column
is omitted from an `INSERT`, which the server never does). -/
structure PrintJobRow where
  id : Nat
  jobId : Option String
  userName : String
  machineName : String
  printerName : String
  documentName : Option String
  pageCount : Option Int
  printTime : Nat
  status : Option String
  fileSize : Option Int
  createdAt : Nat
  deriving DecidableEq, Repr

/-- The job store: the `print_jobs` table plus the `SERIAL` sequence. -/
structure Store where
  rows : List PrintJobRow
  nextId : Nat
  deriving DecidableEq, Repr

/-- Error categories visible to API callers.  The server maps every storage
exception to a generic 500 response (`storageError`); no code path of
`server.js` produces a validation error. -/
inductive ApiError where
  | validationError
  | storageError
  deriving DecidableEq, Repr

instance {ε α : Type} [DecidableEq ε] [DecidableEq α] :
    DecidableEq (Except ε α)
  | .ok a, .ok b =>
    if h : a = b then .isTrue (by rw [h]) else .isFalse (by simp [h])
  | .ok _, .error _ => .isFalse (by simp)
  | .error _, .ok _ => .isFalse (by simp)
  | .error e, .error f =>
    if h : e = f then .isTrue (by rw [h]) else .isFalse (by simp [h])

/-- The `INSERT INTO print_jobs ... VALUES ($1..$9)` of the ingestion
handler.  The parameters are exactly the destructured request fields, with
`printTime || new Date()` the single JavaScript-side default.  PostgreSQL
rejects the insert (NOT NULL violation) iff `user_name`, `machine_name` or
`printer_name` is `NULL`; an empty string is a legal non-NULL value. -/
def insertJob (st : Store) (now : Nat) (r : JobReport) :
    Except ApiError (PrintJobRow × Store) :=
  match r.userName, r.machineName, r.printerName with
  | some u, some m, some p =>
      let row : PrintJobRow :=
        { id := st.nextId
          jobId := r.jobId
          userName := u
          machineName := m
          printerName := p
          documentName := r.documentName
          pageCount := r.pageCount
          printTime := r.printTime.getD now
          status := r.status
          fileSize := r.fileSize
          createdAt := now }
      .ok (row, { rows := st.rows ++ [row], nextId := st.nextId + 1 })
  | _, _, _ => .error .storageError

/-- `POST /api/print-jobs`: on a storage failure the handler answers 500 and
the store is unchanged (the single-row insert is atomic). -/
def ingest (st : Store) (now : Nat) (r : JobReport) :
    Except ApiError PrintJobRow × Store :=
  match insertJob st now r with
  | .ok (row, st') => (.ok row, st')
  | .error e => (.error e, st)

/-! ### ASCII case folding and SQL `LIKE` / `ILIKE` matching

The query handler filters with `user_name ILIKE '%' || user || '%'` (and
likewise for printer and free-text search).  `ILIKE` is case-insensitive
`LIKE`; for ASCII data it compares the case-folded pattern against the
case-folded subject, with `%` matching any sequence, `_` any single
character, and backslash escaping the following pattern character. -/

/-- ASCII lowercasing, the case folding PostgreSQL applies for `ILIKE`
over ASCII text. -/
def asciiLower (c : Char) : Char :=
  if 65 ≤ c.toNat ∧ c.toNat ≤ 90 then Char.ofNat (c.toNat + 32) else c

/-- Lowercase a character list. -/
def lowerL (l : List Char) : List Char := l.map asciiLower

/-- `containsSubstr h n`: `n` occurs contiguously inside `h`. -/
def containsSubstr (h n : List Char) : Bool :=
  match h with
  | [] => n.isEmpty
  | _ :: t => n.isPrefixOf h || containsSubstr t n

/-- SQL `LIKE` pattern matching over character lists: first the pattern,
then the subject.  A pattern ending in a dangling escape character is
modelled as matching nothing (PostgreSQL raises an error there; no claim
depends on that case). -/
def likeMatch (p : List Char) : List Char → Bool :=
  match p with
  | [] => fun h => h.isEmpty
  | c :: ps =>
    if c = '%' then
      fun h => h.tails.any fun t => likeMatch ps t
    else if c = '_' then
      fun h =>
        match h with
        | [] => false
        | _ :: t => likeMatch ps t
    else if c = '\\' then
      match ps with
      | [] => fun _ => false
      | e :: ps' =>
        fun h =>
          match h with
          | [] => false
          | x :: t => x == e && likeMatch ps' t
    else
      fun h =>
        match h with
        | [] => false
        | x :: t => x == c && likeMatch ps t

/-- `hay ILIKE pat`: case-insensitive `LIKE`. -/
def sqlILike (hay pat : String) : Bool :=
  likeMatch (lowerL pat.data) (lowerL hay.data)

/-- A character list free of the `LIKE` metacharacters `%`, `_` and the
escape character `\`. -/
def metaFreeL (l : List Char) : Prop :=
  ∀ c ∈ l, c ≠ '%' ∧ c ≠ '_' ∧ c ≠ '\\'

instance (l : List Char) : Decidable (metaFreeL l) :=
  inferInstanceAs (Decidable (∀ c ∈ l, c ≠ '%' ∧ c ≠ '_' ∧ c ≠ '\\'))

/-- The spec's notion of filter match: a case-insensitive substring
occurrence of the filter text inside the field. -/
def substrCI (pat hay : String) : Prop :=
  ∃ pre post, pre ++ lowerL pat.data ++ post = lowerL hay.data

theorem containsSubstr_iff_occurs (h n : List Char) :
    containsSubstr h n = true ↔ n <:+: h := by
  induction h with
  | nil =>
    simp [containsSubstr, List.isEmpty_iff, List.infix_nil]
  | cons c t ih =>
    rw [containsSubstr]
    rw [Bool.or_eq_true, List.isPrefixOf_iff_prefix, ih]
    exact ( List.infix_cons_iff).symm

theorem substrCI_iff_containsSubstr (pat hay : String) :
    substrCI pat hay ↔
      containsSubstr (lowerL hay.data) (lowerL pat.data) = true := by
  rw [containsSubstr_iff_occurs]
  exact Iff.rfl

theorem asciiLower_toNat_of_upper (c : Char) (h1 : 65 ≤ c.toNat)
    (h2 : c.toNat ≤ 90) : (asciiLower c).toNat = c.toNat + 32 := by
  have hv : (c.toNat + 32).isValidChar := by
    left
    omega
  rw [asciiLower, if_pos ⟨h1, h2⟩, Char.toNat, Char.ofNat, dif_pos hv]
  rfl

theorem asciiLower_metaFree (c : Char) (h : c ≠ '%' ∧ c ≠ '_' ∧ c ≠ '\\') :
    asciiLower c ≠ '%' ∧ asciiLower c ≠ '_' ∧ asciiLower c ≠ '\\' := by
  by_cases hc : 65 ≤ c.toNat ∧ c.toNat ≤ 90
  · have ht := asciiLower_toNat_of_upper c hc.1 hc.2
    have h37 : ('%').toNat = 37 := rfl
    have h95 : ('_').toNat = 95 := rfl
    have h92 : ('\\').toNat = 92 := rfl
    refine ⟨fun he => ?_, fun he => ?_, fun he => ?_⟩
    · rw [he, h37] at ht
      omega
    · rw [he, h95] at ht
      omega
    · rw [he, h92] at ht
      omega
  · rw [asciiLower, if_neg hc]
    exact h

theorem metaFreeL_lowerL (l : List Char) (h : metaFreeL l) :
    metaFreeL (lowerL l) := by
  intro c hc
  rcases List.mem_map.mp hc with ⟨a, ha, rfl⟩
  exact asciiLower_metaFree a (h a ha)

theorem likeMatch_pct_cons (ps h : List Char) :
    likeMatch ('%' :: ps) h = h.tails.any fun t => likeMatch ps t := by
  conv_lhs => rw [likeMatch.eq_def]
  simp only [if_true]

theorem likeMatch_pct_cons_iff (ps h : List Char) :
    likeMatch ('%' :: ps) h = true ↔
      ∃ t, t <:+ h ∧ likeMatch ps t = true := by
  rw [likeMatch_pct_cons, List.any_eq_true]
  simp [List.mem_tails]

theorem likeMatch_cons_lit (c : Char)
    (hc : c ≠ '%' ∧ c ≠ '_' ∧ c ≠ '\\') (ps : List Char) :
    ∀ h, likeMatch (c :: ps) h =
      match h with
      | [] => false
      | x :: t => x == c && likeMatch ps t := by
  intro h
  conv_lhs => rw [likeMatch.eq_def]
  simp only []
  rw [if_neg hc.1, if_neg hc.2.1, if_neg hc.2.2]

theorem likeMatch_append_pct (n : List Char) (hn : metaFreeL n) :
    ∀ h, (likeMatch (n ++ ['%']) h = true ↔ n <+: h) := by
  induction n with
  | nil =>
    intro h
    simp only [List.nil_append]
    constructor
    · intro _
      exact List.nil_prefix
    · intro _
      rw [likeMatch_pct_cons, List.any_eq_true]
      exact ⟨[], (List.mem_tails [] h).mpr List.nil_suffix, rfl⟩
  | cons c n ih =>
    intro h
    have hc := hn c (List.mem_cons_self c n)
    have hn' : metaFreeL n := fun a ha => hn a (List.mem_cons_of_mem c ha)
    rw [List.cons_append, likeMatch_cons_lit c hc]
    cases h with
    | nil =>
      simp
    | cons x t =>
      rw [List.cons_prefix_cons]
      constructor
      · intro hx
        rcases Bool.and_eq_true_iff.mp hx with ⟨hxc, hrest⟩
        exact ⟨(beq_iff_eq.mp hxc).symm, (ih hn' t).mp hrest⟩
      · rintro ⟨rfl, hpre⟩
        exact Bool.and_eq_true_iff.mpr ⟨beq_self_eq_true c, (ih hn' t).mpr hpre⟩

theorem likeMatch_pct_wrap (n : List Char) (hn : metaFreeL n) (h : List Char) :
    likeMatch ('%' :: (n ++ ['%'])) h = true ↔ n <:+: h := by
  rw [likeMatch_pct_cons_iff]
  rw [ List.infix_iff_prefix_suffix]
  constructor
  · rintro ⟨t, hsuf, hm⟩
    exact ⟨t, (likeMatch_append_pct n hn t).mp hm, hsuf⟩
  · rintro ⟨t, hpre, hsuf⟩
    exact ⟨t, hsuf, (likeMatch_append_pct n hn t).mpr hpre⟩

/-- The `'%' || f || '%'` pattern that the query handler builds, under the
`ILIKE` semantics, is exactly case-insensitive substring occurrence, for a
filter text free of `LIKE` metacharacters. -/
theorem sqlILike_wrap_iff (hay u : String) (hu : metaFreeL u.data) :
    sqlILike hay ("%" ++ u ++ "%") = true ↔ substrCI u hay := by
  have hdata : ("%" ++ u ++ "%").data = '%' :: (u.data ++ ['%']) := by
    rw [String.data_append, String.data_append]
    rfl
  have hlow : lowerL ('%' :: (u.data ++ ['%'])) =
      '%' :: (lowerL u.data ++ ['%']) := by
    simp [lowerL, asciiLower]
  rw [sqlILike, hdata, hlow,
    likeMatch_pct_wrap (lowerL u.data) (metaFreeL_lowerL u.data hu)]
  rw [substrCI]
  exact Iff.rfl

/-! ### Query engine (`GET /api/print-jobs`)

The handler conditionally appends `ILIKE`/range clauses (an empty-string
query parameter is falsy in JavaScript and appends no clause; since
`ILIKE '%%'` matches every string and an empty-pattern substring
constraint is vacuous, both cases are embedded as the same clause),
orders by `print_time DESC` with **no** tie-break key, and applies
`LIMIT limit OFFSET (page-1)*limit`.  PostgreSQL rejects a negative
`LIMIT` or `OFFSET` value with an error, which the handler maps to a
generic 500 response. -/

/-- Query-string parameters of `GET /api/print-jobs`, after numeric
coercion of `page` and `limit` (defaults 1 and 50). -/
structure QueryParams where
  page : Int := 1
  limit : Int := 50
  user : Option String := none
  printer : Option String := none
  startDate : Option Nat := none
  endDate : Option Nat := none
  search : Option String := none
  deriving DecidableEq, Repr

/-- The `user_name ILIKE '%' || user || '%'` clause, appended only when
the `user` parameter is supplied. -/
def userClause (p : QueryParams) (r : PrintJobRow) : Bool :=
  match p.user with
  | none => true
  | some u => sqlILike r.userName ("%" ++ u ++ "%")

/-- The `printer_name ILIKE '%' || printer || '%'` clause. -/
def printerClause (p : QueryParams) (r : PrintJobRow) : Bool :=
  match p.printer with
  | none => true
  | some q => sqlILike r.printerName ("%" ++ q ++ "%")

/-- The `print_time >= startDate` clause. -/
def startDateClause (p : QueryParams) (r : PrintJobRow) : Bool :=
  match p.startDate with
  | none => true
  | some s => decide (s ≤ r.printTime)

/-- The `print_time <= endDate` clause. -/
def endDateClause (p : QueryParams) (r : PrintJobRow) : Bool :=
  match p.endDate with
  | none => true
  | some e => decide (r.printTime ≤ e)

/-- The `(document_name ILIKE p OR user_name ILIKE p)` free-text clause
(SQL `NULL ILIKE p` is not true, so a `NULL` document name matches only
through the user name). -/
def searchClause (p : QueryParams) (r : PrintJobRow) : Bool :=
  match p.search with
  | none => true
  | some s =>
    (match r.documentName with
     | none => false
     | some d => sqlILike d ("%" ++ s ++ "%")) ||
    sqlILike r.userName ("%" ++ s ++ "%")

/-- The conjunction of `WHERE` clauses the handler builds: each supplied
filter contributes one clause (an empty-string query parameter is falsy
in JavaScript and contributes no clause; since `ILIKE '%%'` matches
every string, both cases embed as the same always-true clause). -/
def rowMatches (p : QueryParams) (r : PrintJobRow) : Bool :=
  userClause p r && printerClause p r && startDateClause p r &&
    endDateClause p r && searchClause p r

/-- `SELECT COUNT(*)` under the same filter set (the handler builds the
count query with clauses identical to the row query). -/
def queryTotal (db : List PrintJobRow) (p : QueryParams) : Nat :=
  (db.filter (rowMatches p)).length

/-- `Math.ceil(totalCount / limit)`: `none` models the non-finite
JavaScript value (`Infinity`/`NaN`) produced when `limit = 0`. -/
def queryPages (db : List PrintJobRow) (p : QueryParams) : Option Nat :=
  if p.limit ≤ 0 then none
  else some ((queryTotal db p + p.limit.toNat - 1) / p.limit.toNat)

/-- `l.Chain'` ordering produced by `ORDER BY print_time DESC`. -/
def sortedByTimeDesc (l : List PrintJobRow) : Prop :=
  l.Chain' fun a b => b.printTime ≤ a.printTime

/-- An ordering PostgreSQL may return for the filtered scan: any
permutation of the matching rows that is sorted by `print_time`
descending.  With no secondary sort key, rows with equal timestamps may
appear in any relative order, and two executions of the same query may
use different orders. -/
def validQueryOrder (db : List PrintJobRow) (p : QueryParams)
    (out : List PrintJobRow) : Prop :=
  out.Perm (db.filter (rowMatches p)) ∧ sortedByTimeDesc out

/-- A kernel-reducible decision procedure for `List.Chain'`. -/
def decChain' {α : Type} (R : α → α → Prop) (dR : ∀ a b, Decidable (R a b)) :
    (l : List α) → Decidable (l.Chain' R)
  | [] => .isTrue trivial
  | [_] => .isTrue List.Chain.nil
  | a :: b :: t =>
    @decidable_of_iff _ _ List.chain'_cons.symm
      (@instDecidableAnd _ _ (dR a b) (decChain' R dR (b :: t)))

instance {α : Type} {R : α → α → Prop} [DecidableRel R] (l : List α) :
    Decidable (l.Chain' R) :=
  decChain' R (fun _ _ => inferInstance) l

instance (l : List PrintJobRow) : Decidable (sortedByTimeDesc l) :=
  decChain' (fun a b : PrintJobRow => b.printTime ≤ a.printTime)
    (fun a b => Nat.decLe b.printTime a.printTime) l

instance (db : List PrintJobRow) (p : QueryParams)
    (out : List PrintJobRow) : Decidable (validQueryOrder db p out) :=
  inferInstanceAs
    (Decidable (out.Perm (db.filter (rowMatches p)) ∧ sortedByTimeDesc out))

/-- The body of a successful `GET /api/print-jobs` response. -/
structure QueryResponse where
  data : List PrintJobRow
  page : Int
  limit : Int
  total : Nat
  pages : Option Nat
  deriving DecidableEq, Repr

/-- `GET /api/print-jobs`, given the row ordering `out` the store chose
for this execution.  `offset = (page - 1) * limit`; a negative `LIMIT`
or `OFFSET` makes PostgreSQL fail, answered as a generic 500. -/
def runQuery (db : List PrintJobRow) (p : QueryParams)
    (out : List PrintJobRow) : Except ApiError QueryResponse :=
  if p.limit < 0 ∨ (p.page - 1) * p.limit < 0 then .error .storageError
  else
    .ok { data := (out.drop ((p.page - 1) * p.limit).toNat).take p.limit.toNat
          page := p.page
          limit := p.limit
          total := queryTotal db p
          pages := queryPages db p }

/-- The data slice a page-`n` request yields under ordering `out`
(empty when the request errors). -/
def pageDataOf (db : List PrintJobRow) (p : QueryParams)
    (out : List PrintJobRow) (n : Int) : List PrintJobRow :=
  match runQuery db { p with page := n } out with
  | .ok res => res.data
  | .error _ => []

/-! ### Aggregation engine (`GET /api/stats`) -/

/-- The `stats` date filter: applied only when **both** bounds are
supplied (`if (startDate && endDate)`). -/
def dateFiltered (db : List PrintJobRow) (startDate endDate : Option Nat) :
    List PrintJobRow :=
  match startDate, endDate with
  | some s, some e => db.filter fun r => s ≤ r.printTime && r.printTime ≤ e
  | _, _ => db

/-- SQL `SUM(page_count)`: `NULL` inputs are ignored and the sum of an
empty (or all-`NULL`) input set is `NULL`. -/
def sumPageCountSql (rows : List PrintJobRow) : Option Int :=
  let vals := rows.filterMap fun r => r.pageCount
  if vals.isEmpty then none else some vals.sum

/-- `totalJobs`: `parseInt` of `SELECT COUNT(*)` over the date filter. -/
def statsTotalJobs (db : List PrintJobRow) (startDate endDate : Option Nat) :
    Nat :=
  (dateFiltered db startDate endDate).length

/-- `totalPages`: `parseInt(totalPages.rows[0].total || 0)` — a `NULL`
sum is coerced to `0`. -/
def statsTotalPages (db : List PrintJobRow) (startDate endDate : Option Nat) :
    Int :=
  (sumPageCountSql (dateFiltered db startDate endDate)).getD 0

/-- One row of the `GROUP BY` queries behind `topUsers`/`topPrinters`. -/
structure StatEntry where
  name : String
  jobCount : Nat
  pageSum : Option Int
  deriving DecidableEq, Repr

/-- The `GROUP BY` result over a key (user name or printer name): one
entry per distinct key, carrying `COUNT(*)` and `SUM(page_count)`. -/
def groupsBy (rows : List PrintJobRow) (key : PrintJobRow → String) :
    List StatEntry :=
  ((rows.map key).dedup).map fun n =>
    { name := n
      jobCount := (rows.filter fun r => key r = n).length
      pageSum := sumPageCountSql (rows.filter fun r => key r = n) }

/-- `a` may precede `b` under `ORDER BY x DESC` when `x` is nullable:
PostgreSQL sorts `NULL` first in descending order. -/
def optIntDescLe (a b : Option Int) : Prop :=
  match a, b with
  | none, _ => True
  | some _, none => False
  | some x, some y => y ≤ x

instance : (a b : Option Int) → Decidable (optIntDescLe a b)
  | none, _ => .isTrue trivial
  | some _, none => .isFalse id
  | some x, some y => inferInstanceAs (Decidable (y ≤ x))

/-- A `topUsers` result PostgreSQL may return: the first 10 entries of
some permutation of the user groups that is sorted by summed
`page_count` descending.  No tie-break key is given, so equal sums may
come in any relative order. -/
def validTopUsers (rows : List PrintJobRow) (l : List StatEntry) : Prop :=
  ∃ s : List StatEntry, s.Perm (groupsBy rows fun r => r.userName) ∧
    s.Chain' (fun a b => optIntDescLe a.pageSum b.pageSum) ∧ l = s.take 10

/-- A `topPrinters` result PostgreSQL may return: the first 10 entries
of some permutation of the printer groups sorted by `COUNT(*)`
descending, again with no tie-break key. -/
def validTopPrinters (rows : List PrintJobRow) (l : List StatEntry) : Prop :=
  ∃ s : List StatEntry, s.Perm (groupsBy rows fun r => r.printerName) ∧
    s.Chain' (fun a b => b.jobCount ≤ a.jobCount) ∧ l = s.take 10

/-! ### Spec-side definitions (for refinement claims) -/

/-- Modelled from the spec's words: the record matches the filter set when
every supplied filter holds, the user/printer filters being
case-insensitive substring matches, the date bounds inclusive, and the
free-text filter a disjunction over document name and user name.  A
missing filter imposes no constraint. -/
def specMatches (p : QueryParams) (r : PrintJobRow) : Prop :=
  (∀ u, p.user = some u → substrCI u r.userName) ∧
  (∀ q, p.printer = some q → substrCI q r.printerName) ∧
  (∀ s, p.startDate = some s → s ≤ r.printTime) ∧
  (∀ e, p.endDate = some e → r.printTime ≤ e) ∧
  (∀ s, p.search = some s →
    ((∃ d, r.documentName = some d ∧ substrCI s d) ∨ substrCI s r.userName))

/-- A supplied filter text is free of `LIKE` metacharacters. -/
def optMetaFree (o : Option String) : Prop :=
  match o with
  | none => True
  | some s => metaFreeL s.data

instance : (o : Option String) → Decidable (optMetaFree o)
  | none => .isTrue trivial
  | some s => inferInstanceAs (Decidable (metaFreeL s.data))

/-- The row a successful insert stores, as a function of the request. -/
def mkRow (st : Store) (now : Nat) (r : JobReport) (u m p : String) :
    PrintJobRow :=
  { id := st.nextId
    jobId := r.jobId
    userName := u
    machineName := m
    printerName := p
    documentName := r.documentName
    pageCount := r.pageCount
    printTime := r.printTime.getD now
    status := r.status
    fileSize := r.fileSize
    createdAt := now }

theorem insertJob_ok (st : Store) (now : Nat) (r : JobReport)
    (u m p : String) (hu : r.userName = some u) (hm : r.machineName = some m)
    (hp : r.printerName = some p) :
    insertJob st now r = .ok (mkRow st now r u m p,
      { rows := st.rows ++ [mkRow st now r u m p], nextId := st.nextId + 1 }) := by
  unfold insertJob mkRow
  rw [hu, hm, hp]

/-! ### Fixtures for witnesses and counterexamples -/

/-- An empty store whose identity sequence starts at 1, as `SERIAL` does. -/
def emptyStore : Store := { rows := [], nextId := 1 }

/-- A request whose `userName` is present but the empty string. -/
def reportEmptyUser : JobReport :=
  { jobId := some "J-1"
    userName := some ""
    machineName := some "PC-1"
    printerName := some "HP LaserJet Pro"
    documentName := some "report.pdf"
    pageCount := some 3
    printTime := some 10
    status := some "completed"
    fileSize := some 1024 }

/-- A request missing `userName` entirely. -/
def reportNoUser : JobReport :=
  { reportEmptyUser with userName := none }

/-- A valid request that omits `pageCount`, `printTime`, `status` and
`fileSize`. -/
def reportDefaults : JobReport :=
  { jobId := none
    userName := some "alice"
    machineName := some "PC-2"
    printerName := some "Canon ImageRunner"
    documentName := some "memo.docx"
    pageCount := none
    printTime := none
    status := none
    fileSize := none }

/-! ### Claims C1, C2, C9 — ingestion -/

/-- C1 counterexample: an ingestion request whose `userName` is the empty
string does not fail at all — the handler performs no validation and
`NOT NULL` admits an empty string — so the operation succeeds and a
record is added to the store, contradicting the claim. -/
theorem claim_C1_counterexample :
    (ingest emptyStore 5 reportEmptyUser).1 ≠ .error .validationError ∧
    (ingest emptyStore 5 reportEmptyUser).2.rows.length =
      emptyStore.rows.length + 1 := by
  decide

/-- C1 (amended): an ingestion request in which `userName`, `machineName`
or `printerName` is absent (SQL `NULL`) fails — via the store's
`NOT NULL` constraint, surfaced as a generic storage-level failure, not a
`ValidationError` — and the store is unchanged; an empty string, however,
is accepted and stored. -/
theorem claim_C1_amended (st : Store) (now : Nat) (r : JobReport)
    (h : r.userName = none ∨ r.machineName = none ∨ r.printerName = none) :
    (ingest st now r).1 = .error .storageError ∧ (ingest st now r).2 = st := by
  cases hu : r.userName <;> cases hm : r.machineName <;>
    cases hp : r.printerName <;>
    simp_all [ingest, insertJob]

/-- C1 witness: the amended theorem at a concrete missing-field request. -/
theorem claim_C1_witness :
    (reportNoUser.userName = none ∨ reportNoUser.machineName = none ∨
      reportNoUser.printerName = none) ∧
    ((ingest emptyStore 5 reportNoUser).1 = .error .storageError ∧
      (ingest emptyStore 5 reportNoUser).2 = emptyStore) :=
  ⟨by decide, claim_C1_amended emptyStore 5 reportNoUser (by decide)⟩

/-- C2: the code stores SQL `NULL` — not the documented defaults — for
absent `pageCount`, `fileSize` and `status`, because the handler passes
the absent fields as explicit `NULL` parameters, which bypasses the
schema's column `DEFAULT`s; only `printTime` is defaulted (in
JavaScript) to the current server time.  Evaluated at a request omitting
all four fields. -/
theorem claim_C2_theorem :
    (ingest emptyStore 42 reportDefaults).1 = .ok
      { id := 1
        jobId := none
        userName := "alice"
        machineName := "PC-2"
        printerName := "Canon ImageRunner"
        documentName := some "memo.docx"
        pageCount := none
        printTime := 42
        status := none
        fileSize := none
        createdAt := 42 } := by
  decide

/-- C9: two ingestion requests carrying the same external job id (with
any print timestamps, in either arrival order) are both accepted: the
store has no uniqueness constraint on `job_id`, so both rows are stored
with distinct internal identities. -/
theorem claim_C9_theorem (st : Store) (n1 n2 : Nat) (r1 r2 : JobReport)
    (u1 m1 p1 u2 m2 p2 : String)
    (h1 : r1.userName = some u1 ∧ r1.machineName = some m1 ∧
      r1.printerName = some p1)
    (h2 : r2.userName = some u2 ∧ r2.machineName = some m2 ∧
      r2.printerName = some p2)
    (_hdup : r1.jobId = r2.jobId) :
    ∃ row1 st1 row2 st2,
      insertJob st n1 r1 = .ok (row1, st1) ∧
      insertJob st1 n2 r2 = .ok (row2, st2) ∧
      row1.id ≠ row2.id ∧ row1 ∈ st2.rows ∧ row2 ∈ st2.rows := by
  refine ⟨mkRow st n1 r1 u1 m1 p1, _, _, _,
    insertJob_ok st n1 r1 u1 m1 p1 h1.1 h1.2.1 h1.2.2,
    insertJob_ok _ n2 r2 u2 m2 p2 h2.1 h2.2.1 h2.2.2, ?_, ?_, ?_⟩
  · simp [mkRow]
  · simp [mkRow]
  · simp [mkRow]

/-- C9 witness: two concrete requests with the same external job id are
both stored, with distinct internal identities. -/
theorem claim_C9_witness :
    ∃ row1 st1 row2 st2,
      insertJob emptyStore 7 reportEmptyUser = .ok (row1, st1) ∧
      insertJob st1 9 reportEmptyUser = .ok (row2, st2) ∧
      row1.id ≠ row2.id ∧ row1 ∈ st2.rows ∧ row2 ∈ st2.rows :=
  claim_C9_theorem emptyStore 7 9 reportEmptyUser reportEmptyUser
    "" "PC-1" "HP LaserJet Pro" "" "PC-1" "HP LaserJet Pro"
    ⟨rfl, rfl, rfl⟩ ⟨rfl, rfl, rfl⟩ rfl

/-! ### Fixtures for the query claims -/

/-- A stored row with print timestamp 200. -/
def rowT2 : PrintJobRow :=
  { id := 2
    jobId := some "J-2"
    userName := "bob"
    machineName := "PC-2"
    printerName := "P1"
    documentName := some "b.pdf"
    pageCount := some 3
    printTime := 200
    status := some "completed"
    fileSize := some 64
    createdAt := 201 }

/-- A stored row with print timestamp 100. -/
def rowT1 : PrintJobRow :=
  { id := 1
    jobId := some "J-1"
    userName := "alice"
    machineName := "PC-1"
    printerName := "P1"
    documentName := some "a.pdf"
    pageCount := some 5
    printTime := 100
    status := some "completed"
    fileSize := some 32
    createdAt := 101 }

/-- A two-row store, already in descending print-time order. -/
def dbW : List PrintJobRow := [rowT2, rowT1]

/-! ### Claims C5, C6, C10 — pagination -/

/-- C5 counterexample: a query with `page = 0` (default `limit` 50) is
neither rejected with a `ValidationError` nor clamped: the computed
`OFFSET` is negative, PostgreSQL fails, and the handler surfaces the
storage-level failure as a generic 500. -/
theorem claim_C5_counterexample :
    validQueryOrder dbW { page := 0 } dbW ∧
    runQuery dbW { page := 0 } dbW = .error .storageError := by
  decide

/-- C5 (amended): a query with `page ≤ 0` or `limit ≤ 0` does not crash
the server process, but it is neither rejected with a `ValidationError`
nor clamped: when `limit < 0`, or `page ≤ 0` with `limit > 0`, the
negative `LIMIT`/`OFFSET` makes the store fail and the handler answers
with a generic storage-level error; when `limit = 0` the query succeeds
with an empty slice (and a non-finite `pages` value). -/
theorem claim_C5_amended (db : List PrintJobRow) (p : QueryParams)
    (out : List PrintJobRow) (_hbad : p.page ≤ 0 ∨ p.limit ≤ 0) :
    (p.limit < 0 ∨ (p.page ≤ 0 ∧ 0 < p.limit) →
      runQuery db p out = .error .storageError) ∧
    (p.limit = 0 →
      runQuery db p out = .ok
        { data := []
          page := p.page
          limit := p.limit
          total := queryTotal db p
          pages := none }) := by
  constructor
  · rintro (h | ⟨hp', hl⟩)
    · rw [runQuery, if_pos (Or.inl h)]
    · have hoff : (p.page - 1) * p.limit < 0 :=
        mul_neg_of_neg_of_pos (by omega) hl
      rw [runQuery, if_pos (Or.inr hoff)]
  · intro h0
    simp [runQuery, queryPages, h0]

/-- C5 witness: the amended theorem at `page = 0`, `limit = 50`. -/
theorem claim_C5_witness :
    (((0 : Int) ≤ 0 ∨ (50 : Int) ≤ 0) ∧
      (((50 : Int) < 0 ∨ ((0 : Int) ≤ 0 ∧ (0 : Int) < 50) →
        runQuery dbW { page := 0 } dbW = .error .storageError) ∧
      ((50 : Int) = 0 →
        runQuery dbW { page := 0 } dbW = .ok
          { data := []
            page := 0
            limit := 50
            total := queryTotal dbW { page := 0 }
            pages := none }))) :=
  ⟨Or.inl le_rfl, claim_C5_amended dbW { page := 0 } dbW (Or.inl le_rfl)⟩

/-- C6: for a query with valid paging (`page ≥ 1`, `limit ≥ 1`), the
returned `total` is the unpaged matching count, `pages` is
`ceil(total / limit)`, the returned slice is no longer than `limit`, and
an empty matching set yields an empty slice with `total` 0 and `pages`
0, reported as success. -/
theorem claim_C6_theorem (db : List PrintJobRow) (p : QueryParams)
    (out : List PrintJobRow) (hpage : 1 ≤ p.page) (hlimit : 1 ≤ p.limit)
    (hord : validQueryOrder db p out) :
    ∃ res, runQuery db p out = .ok res ∧
      res.total = (db.filter (rowMatches p)).length ∧
      res.pages = some ((res.total + p.limit.toNat - 1) / p.limit.toNat) ∧
      res.data.length ≤ p.limit.toNat ∧
      (db.filter (rowMatches p) = [] →
        res.data = [] ∧ res.total = 0 ∧ res.pages = some 0) := by
  have hoff : 0 ≤ (p.page - 1) * p.limit := mul_nonneg (by omega) (by omega)
  have hcond : ¬(p.limit < 0 ∨ (p.page - 1) * p.limit < 0) := by omega
  have hL0 : ¬p.limit ≤ 0 := by omega
  have hpg : queryPages db p =
      some ((queryTotal db p + p.limit.toNat - 1) / p.limit.toNat) := by
    rw [queryPages, if_neg hL0]
  refine ⟨_, by rw [runQuery, if_neg hcond], rfl, ?_, ?_, ?_⟩
  · exact hpg
  · simpa using List.length_take_le _ _
  · intro hnil
    have hout : out = [] := (hnil ▸ hord.1).eq_nil
    have htot : queryTotal db p = 0 := by
      rw [queryTotal, hnil]
      rfl
    refine ⟨by simp [hout], htot, ?_⟩
    rw [hpg, htot]
    have hlt : p.limit.toNat - 1 < p.limit.toNat := by omega
    have hdiv : (p.limit.toNat - 1) / p.limit.toNat = 0 :=
      Nat.div_eq_of_lt hlt
    simp [hdiv]

/-- C6 witness: the theorem at a concrete two-row store with default
paging. -/
theorem claim_C6_witness :
    ∃ res, runQuery dbW {} dbW = .ok res ∧
      res.total = (dbW.filter (rowMatches {})).length ∧
      res.pages = some ((res.total + (50 : Int).toNat - 1) / (50 : Int).toNat) ∧
      res.data.length ≤ (50 : Int).toNat ∧
      (dbW.filter (rowMatches {}) = [] →
        res.data = [] ∧ res.total = 0 ∧ res.pages = some 0) :=
  claim_C6_theorem dbW {} dbW (by decide) (by decide) (by decide)

/-- C10: a query whose offset `(page − 1) × limit` is at least the
matching count succeeds with an empty data array while `total` and
`pages` still reflect the full unpaged matching count. -/
theorem claim_C10_theorem (db : List PrintJobRow) (p : QueryParams)
    (out : List PrintJobRow) (hpage : 1 ≤ p.page) (hlimit : 1 ≤ p.limit)
    (hord : validQueryOrder db p out)
    (hpast : (queryTotal db p : Int) ≤ (p.page - 1) * p.limit) :
    runQuery db p out = .ok
      { data := []
        page := p.page
        limit := p.limit
        total := queryTotal db p
        pages := some ((queryTotal db p + p.limit.toNat - 1) / p.limit.toNat) } := by
  have hoff : 0 ≤ (p.page - 1) * p.limit := mul_nonneg (by omega) (by omega)
  have hcond : ¬(p.limit < 0 ∨ (p.page - 1) * p.limit < 0) := by omega
  have hlen : out.length = queryTotal db p := hord.1.length_eq
  have hdrop : out.drop ((p.page - 1) * p.limit).toNat = [] := by
    have h1 : out.length ≤ ((p.page - 1) * p.limit).toNat := by
      rw [hlen]
      omega
    exact List.drop_eq_nil_of_le h1
  have hL0 : ¬p.limit ≤ 0 := by omega
  rw [runQuery, if_neg hcond, hdrop, List.take_nil, queryPages, if_neg hL0]

/-- C10 witness: page 5 of a two-row store at `limit` 10 is an empty
success whose metadata still counts both rows. -/
theorem claim_C10_witness :
    validQueryOrder dbW { page := 5, limit := 10 } dbW ∧
    runQuery dbW { page := 5, limit := 10 } dbW = .ok
      { data := []
        page := 5
        limit := 10
        total := queryTotal dbW { page := 5, limit := 10 }
        pages := some ((queryTotal dbW { page := 5, limit := 10 } +
          (10 : Int).toNat - 1) / (10 : Int).toNat) } :=
  ⟨by decide, claim_C10_theorem dbW { page := 5, limit := 10 } dbW
    (by decide) (by decide) (by decide) (by decide)⟩

/-! ### Claim C7 — aggregation totals -/

theorem sum_filterMap_pageCount (rows : List PrintJobRow) :
    (rows.filterMap fun r => r.pageCount).sum =
      (rows.map fun r => r.pageCount.getD 0).sum := by
  induction rows with
  | nil => rfl
  | cons r t ih =>
    cases hr : r.pageCount <;>
      simp [List.filterMap_cons, hr, ih]

theorem sumPageCountSql_getD (rows : List PrintJobRow) :
    (sumPageCountSql rows).getD 0 =
      (rows.map fun r => r.pageCount.getD 0).sum := by
  rw [← sum_filterMap_pageCount, sumPageCountSql]
  by_cases h : (rows.filterMap fun r => r.pageCount).isEmpty
  · rw [if_pos h]
    rw [List.isEmpty_iff.mp h]
    rfl
  · rw [if_neg h]
    rfl

/-- C7: over the records passing the date filter, `totalJobs` is their
count and `totalPages` the sum of their page counts (a `NULL`
`page_count` contributing 0, as SQL `SUM` ignores `NULL`); with no
matching record the sum is reported as 0, never `NULL`, because the
handler coerces the `NULL` sum with `|| 0`. -/
theorem claim_C7_theorem (db : List PrintJobRow) (s e : Option Nat) :
    statsTotalJobs db s e = (dateFiltered db s e).length ∧
    statsTotalPages db s e =
      ((dateFiltered db s e).map fun r => r.pageCount.getD 0).sum ∧
    (dateFiltered db s e = [] → statsTotalPages db s e = 0) := by
  refine ⟨rfl, sumPageCountSql_getD _, fun hnil => ?_⟩
  rw [statsTotalPages, hnil]
  rfl

/-- C7 witness: the theorem at a concrete store with a date range that
excludes every record, where `totalPages` is 0 rather than `NULL`. -/
theorem claim_C7_witness :
    statsTotalJobs dbW (some 300) (some 400) =
      (dateFiltered dbW (some 300) (some 400)).length ∧
    statsTotalPages dbW (some 300) (some 400) =
      ((dateFiltered dbW (some 300) (some 400)).map
        fun r => r.pageCount.getD 0).sum ∧
    statsTotalPages dbW (some 300) (some 400) = 0 :=
  ⟨(claim_C7_theorem dbW (some 300) (some 400)).1,
   (claim_C7_theorem dbW (some 300) (some 400)).2.1,
   (claim_C7_theorem dbW (some 300) (some 400)).2.2 (by decide)⟩

/-! ### Claim C3 — filter semantics -/

theorem userClause_iff (p : QueryParams) (r : PrintJobRow)
    (hu : optMetaFree p.user) :
    userClause p r = true ↔ ∀ u, p.user = some u → substrCI u r.userName := by
  rw [userClause]
  rcases hpu : p.user with _ | u
  · simp
  · rw [hpu] at hu
    rw [sqlILike_wrap_iff r.userName u hu]
    constructor
    · intro h u' he
      cases he
      exact h
    · intro h
      exact h u rfl

theorem printerClause_iff (p : QueryParams) (r : PrintJobRow)
    (hq : optMetaFree p.printer) :
    printerClause p r = true ↔
      ∀ q, p.printer = some q → substrCI q r.printerName := by
  rw [printerClause]
  rcases hpq : p.printer with _ | q
  · simp
  · rw [hpq] at hq
    rw [sqlILike_wrap_iff r.printerName q hq]
    constructor
    · intro h q' he
      cases he
      exact h
    · intro h
      exact h q rfl

theorem startDateClause_iff (p : QueryParams) (r : PrintJobRow) :
    startDateClause p r = true ↔
      ∀ s, p.startDate = some s → s ≤ r.printTime := by
  rw [startDateClause]
  rcases hps : p.startDate with _ | s <;> simp

theorem endDateClause_iff (p : QueryParams) (r : PrintJobRow) :
    endDateClause p r = true ↔
      ∀ e, p.endDate = some e → r.printTime ≤ e := by
  rw [endDateClause]
  rcases hpe : p.endDate with _ | e <;> simp

theorem searchClause_iff (p : QueryParams) (r : PrintJobRow)
    (hs : optMetaFree p.search) :
    searchClause p r = true ↔
      ∀ s, p.search = some s →
        ((∃ d, r.documentName = some d ∧ substrCI s d) ∨
          substrCI s r.userName) := by
  rw [searchClause]
  rcases hps : p.search with _ | s
  · simp
  · rw [hps] at hs
    rcases hd : r.documentName with _ | d
    · simp [hd, sqlILike_wrap_iff r.userName s hs]
    · simp [hd, sqlILike_wrap_iff d s hs, sqlILike_wrap_iff r.userName s hs]

theorem rowMatches_iff_spec (p : QueryParams) (r : PrintJobRow)
    (hu : optMetaFree p.user) (hq : optMetaFree p.printer)
    (hs : optMetaFree p.search) :
    rowMatches p r = true ↔ specMatches p r := by
  rw [rowMatches, specMatches]
  simp only [Bool.and_eq_true]
  rw [userClause_iff p r hu, printerClause_iff p r hq,
    startDateClause_iff p r, endDateClause_iff p r, searchClause_iff p r hs]
  tauto

/-- A stored row whose user name is the two-character string `xy`. -/
def rowXY : PrintJobRow :=
  { id := 3
    jobId := none
    userName := "xy"
    machineName := "PC-3"
    printerName := "P2"
    documentName := none
    pageCount := some 1
    printTime := 50
    status := some "completed"
    fileSize := some 8
    createdAt := 51 }

/-- A query whose user filter is the single `LIKE` wildcard `_`. -/
def pUnderscore : QueryParams := { user := some "_" }

/-- A query whose user filter is the plain text `ali`. -/
def pAli : QueryParams := { user := some "ali" }

/-- A stored row for the user `Alice`. -/
def rowAlice : PrintJobRow :=
  { rowXY with id := 4, userName := "Alice" }

/-- C3 counterexample: the user filter `_` is passed into an `ILIKE`
pattern unescaped, so it acts as the single-character wildcard: the row
with user name `xy` matches the query although `_` is not a substring
of `xy` — the claimed substring semantics fails. -/
theorem claim_C3_counterexample :
    rowXY ∈ [rowXY].filter (rowMatches pUnderscore) ∧
    ¬specMatches pUnderscore rowXY := by
  constructor
  · decide
  · intro h
    have h1 := h.1 "_" rfl
    have h2 := (substrCI_iff_containsSubstr "_" rowXY.userName).mp h1
    revert h2
    decide

/-- C3 (amended): for filter texts free of the `LIKE` metacharacters
`%`, `_` and `\`, a stored record is in the matching set iff it
satisfies the conjunction of all supplied filters — user and printer
being case-insensitive substring matches, the date bounds inclusive,
the free-text filter a case-insensitive substring match on document
name OR user name, a missing filter imposing no constraint.  (A filter
text containing a metacharacter is interpreted as an `ILIKE` pattern
instead, as the counterexample shows.) -/
theorem claim_C3_amended (db : List PrintJobRow) (p : QueryParams)
    (r : PrintJobRow) (hu : optMetaFree p.user) (hq : optMetaFree p.printer)
    (hs : optMetaFree p.search) :
    r ∈ db.filter (rowMatches p) ↔ r ∈ db ∧ specMatches p r := by
  rw [List.mem_filter, rowMatches_iff_spec p r hu hq hs]

/-- C3 witness: the amended theorem at the filter `ali` against the user
`Alice` (a case-insensitive substring match). -/
theorem claim_C3_witness :
    (optMetaFree pAli.user ∧ optMetaFree pAli.printer ∧
      optMetaFree pAli.search) ∧
    (rowAlice ∈ [rowAlice].filter (rowMatches pAli) ↔
      rowAlice ∈ [rowAlice] ∧ specMatches pAli rowAlice) :=
  ⟨⟨by decide, by decide, by decide⟩,
   claim_C3_amended [rowAlice] pAli rowAlice (by decide) (by decide)
     (by decide)⟩

/-! ### Claim C4 — ordering and the pagination law -/

theorem flatMap_range_chunks {α : Type} (m : Nat) :
    ∀ (k : Nat) (l : List α), l.length ≤ k * m →
      (List.range k).flatMap (fun i => (l.drop (i * m)).take m) = l := by
  intro k
  induction k with
  | zero =>
    intro l hl
    simp only [Nat.zero_mul, Nat.le_zero] at hl
    rw [List.length_eq_zero] at hl
    rw [hl]
    rfl
  | succ k ih =>
    intro l hl
    rw [Nat.succ_mul] at hl
    rw [List.range_succ_eq_map, List.flatMap_cons]
    simp only [Nat.zero_mul, List.drop_zero]
    have hstep : (List.map Nat.succ (List.range k)).flatMap
        (fun i => (l.drop (i * m)).take m) =
        (List.range k).flatMap (fun i => ((l.drop m).drop (i * m)).take m) := by
      rw [List.flatMap_map]
      congr 1
      funext i
      rw [List.drop_drop, Nat.succ_mul, Nat.add_comm (i * m) m]
    rw [hstep, ih (l.drop m) (by rw [List.length_drop]; omega)]
    exact List.take_append_drop m l

theorem le_ceil_mul (n m : Nat) (hm : 1 ≤ m) : n ≤ ((n + m - 1) / m) * m := by
  rcases Nat.eq_zero_or_pos n with rfl | hn
  · simp
  · have hq : (n + m - 1) / m = (n - 1) / m + 1 := by
      have he : n + m - 1 = (n - 1) + m := by omega
      rw [he, Nat.add_div_right _ (by omega)]
    rw [hq]
    have h2 : (n - 1) / m < (n - 1) / m + 1 := Nat.lt_succ_self _
    have h3 : n - 1 < ((n - 1) / m + 1) * m :=
      (Nat.div_lt_iff_lt_mul (by omega)).mp h2
    omega

/-- A stored row with print timestamp 100, internal identity 11. -/
def rowEq1 : PrintJobRow :=
  { rowT1 with id := 11, userName := "carol", printTime := 100 }

/-- A second stored row with the same print timestamp 100, identity 12. -/
def rowEq2 : PrintJobRow :=
  { rowT1 with id := 12, userName := "dave", printTime := 100 }

/-- A two-row store whose rows tie on print timestamp. -/
def db4 : List PrintJobRow := [rowEq1, rowEq2]

/-- A query with page size 1 and no filters. -/
def p1 : QueryParams := { limit := 1 }

/-- C4 counterexample: `ORDER BY print_time DESC` carries no tie-break
key, so both `[rowEq1, rowEq2]` and `[rowEq2, rowEq1]` are orderings the
store may return for the same query; if the page-1 request receives the
first and the page-2 request the second, their concatenation contains
`rowEq1` twice and `rowEq2` never — the claimed deterministic tie-break
and pagination law fail. -/
theorem claim_C4_counterexample :
    validQueryOrder db4 p1 [rowEq1, rowEq2] ∧
    validQueryOrder db4 p1 [rowEq2, rowEq1] ∧
    pageDataOf db4 p1 [rowEq1, rowEq2] 1 = [rowEq1] ∧
    pageDataOf db4 p1 [rowEq2, rowEq1] 2 = [rowEq1] ∧
    rowEq2 ∈ db4.filter (rowMatches p1) ∧
    rowEq2 ∉ pageDataOf db4 p1 [rowEq1, rowEq2] 1 ++
      pageDataOf db4 p1 [rowEq2, rowEq1] 2 := by
  decide

/-- C4 (amended): every ordering the store may return is sorted by print
timestamp descending and is a permutation of the matching set, but ties
among equal timestamps have no deterministic tie-break; for any single
fixed ordering, concatenating pages 1..ceil(total/limit) yields exactly
that ordering — every matching record exactly once, in descending
print-timestamp order — while distinct page requests may observe
different tie orders (see the counterexample). -/
theorem claim_C4_amended (db : List PrintJobRow) (p : QueryParams)
    (out : List PrintJobRow) (hlimit : 1 ≤ p.limit)
    (hord : validQueryOrder db p out) :
    sortedByTimeDesc out ∧
    out.Perm (db.filter (rowMatches p)) ∧
    (List.range ((queryTotal db p + p.limit.toNat - 1) /
        p.limit.toNat)).flatMap
      (fun i => pageDataOf db p out ((i : Int) + 1)) = out := by
  refine ⟨hord.2, hord.1, ?_⟩
  set L := p.limit.toNat with hLdef
  have hLpos : 1 ≤ L := by omega
  have hcastL : (L : Int) = p.limit := by omega
  have hpageData : ∀ i : Nat,
      pageDataOf db p out ((i : Int) + 1) = (out.drop (i * L)).take L := by
    intro i
    have hoffeq : ((i : Int) + 1 - 1) * p.limit = (i : Int) * p.limit := by
      ring
    have hge : 0 ≤ (i : Int) * p.limit :=
      mul_nonneg (Int.natCast_nonneg i) (by omega)
    have hcnd : ¬(p.limit < 0 ∨ ((i : Int) + 1 - 1) * p.limit < 0) := by
      rw [hoffeq]
      omega
    have htn : (((i : Int) + 1 - 1) * p.limit).toNat = i * L := by
      rw [hoffeq, ← hcastL, ← Int.natCast_mul, Int.toNat_natCast]
    rw [pageDataOf, runQuery, if_neg hcnd, htn]
  have hrw : (List.range ((queryTotal db p + L - 1) / L)).flatMap
      (fun i => pageDataOf db p out ((i : Int) + 1)) =
      (List.range ((queryTotal db p + L - 1) / L)).flatMap
      (fun i => (out.drop (i * L)).take L) := by
    congr 1
    funext i
    exact hpageData i
  rw [hrw]
  apply flatMap_range_chunks L
  rw [hord.1.length_eq]
  exact le_ceil_mul _ L hLpos

/-- C4 witness: the amended theorem at a two-row store with distinct
timestamps and default paging. -/
theorem claim_C4_witness :
    ((1 : Int) ≤ ({} : QueryParams).limit ∧ validQueryOrder dbW {} dbW) ∧
    (sortedByTimeDesc dbW ∧ dbW.Perm (dbW.filter (rowMatches {})) ∧
      (List.range ((queryTotal dbW {} + (50 : Int).toNat - 1) /
          (50 : Int).toNat)).flatMap
        (fun i => pageDataOf dbW {} dbW ((i : Int) + 1)) = dbW) :=
  ⟨⟨by decide, by decide⟩, claim_C4_amended dbW {} dbW (by decide) (by decide)⟩

/-! ### Claim C8 — top users / top printers -/

theorem mem_groupsBy (rows : List PrintJobRow) (key : PrintJobRow → String)
    (e : StatEntry) (he : e ∈ groupsBy rows key) :
    e.jobCount = (rows.filter fun r => key r = e.name).length ∧
    e.pageSum = sumPageCountSql (rows.filter fun r => key r = e.name) := by
  rw [groupsBy] at he
  rcases List.mem_map.mp he with ⟨n, _, rfl⟩
  exact ⟨rfl, rfl⟩

theorem map_name_groupsBy (rows : List PrintJobRow)
    (key : PrintJobRow → String) :
    (groupsBy rows key).map (fun e => e.name) = (rows.map key).dedup := by
  rw [groupsBy, List.map_map]
  exact List.map_id'' (fun _ => rfl) _

/-- Fixture: a job of user `b` on printer `P1` with 5 pages. -/
def rowB5 : PrintJobRow :=
  { id := 21
    jobId := none
    userName := "b"
    machineName := "m"
    printerName := "P1"
    documentName := none
    pageCount := some 5
    printTime := 10
    status := none
    fileSize := none
    createdAt := 10 }

/-- Fixture: a job of user `a`, also 5 pages on `P1`. -/
def rowA5 : PrintJobRow := { rowB5 with id := 22, userName := "a" }

/-- A store in which users `a` and `b` tie on summed page count. -/
def rows8 : List PrintJobRow := [rowB5, rowA5]

/-- The group entry of user `b`. -/
def entB : StatEntry := { name := "b", jobCount := 1, pageSum := some 5 }

/-- The group entry of user `a`. -/
def entA : StatEntry := { name := "a", jobCount := 1, pageSum := some 5 }

/-- The group entry of printer `P1`. -/
def entP : StatEntry := { name := "P1", jobCount := 2, pageSum := some 10 }

/-- C8 counterexample: with users `a` and `b` tied on summed page count,
the `GROUP BY ... ORDER BY page_count DESC LIMIT 10` query has no
tie-break key, so `[b, a]` is an output PostgreSQL may return — a tie
ordered by user name descending, contradicting the claimed ascending
tie-break. -/
theorem claim_C8_counterexample :
    validTopUsers rows8 [entB, entA] ∧
    entA.pageSum = entB.pageSum ∧
    entA.name.data = ['a'] ∧ entB.name.data = ['b'] ∧ ('a' : Char) < 'b' := by
  refine ⟨⟨[entB, entA], ?_, ?_, rfl⟩, ?_, ?_, ?_, ?_⟩ <;> decide

/-- C8 (amended): any `topUsers` result has at most 10 entries, one per
distinct user name, ranked by summed `page_count` descending, and any
`topPrinters` result has at most 10 entries ranked by job count
descending, each entry carrying that name's job count and summed page
count over the date-filtered records; the order of ties, however, is
unspecified (no deterministic tie-break). -/
theorem claim_C8_amended (rows : List PrintJobRow) (lu lp : List StatEntry)
    (hu : validTopUsers rows lu) (hp : validTopPrinters rows lp) :
    lu.length ≤ 10 ∧ lp.length ≤ 10 ∧
    lu.Chain' (fun a b => optIntDescLe a.pageSum b.pageSum) ∧
    lp.Chain' (fun a b => b.jobCount ≤ a.jobCount) ∧
    (lu.map fun e => e.name).Nodup ∧
    (lp.map fun e => e.name).Nodup ∧
    (∀ e ∈ lu,
      e.jobCount = (rows.filter fun r => r.userName = e.name).length ∧
      e.pageSum = sumPageCountSql (rows.filter fun r => r.userName = e.name)) ∧
    (∀ e ∈ lp,
      e.jobCount = (rows.filter fun r => r.printerName = e.name).length ∧
      e.pageSum =
        sumPageCountSql (rows.filter fun r => r.printerName = e.name)) := by
  obtain ⟨su, hpermu, hchainu, rfl⟩ := hu
  obtain ⟨sp, hpermp, hchainp, rfl⟩ := hp
  have htpu := List.take_prefix 10 su
  have htpp := List.take_prefix 10 sp
  have hmapu : ((su.take 10).map fun e => e.name).Nodup := by
    rw [List.map_take]
    apply List.Nodup.sublist (List.take_sublist _ _)
    rw [(hpermu.map fun e => e.name).nodup_iff, map_name_groupsBy]
    exact List.nodup_dedup _
  have hmapp : ((sp.take 10).map fun e => e.name).Nodup := by
    rw [List.map_take]
    apply List.Nodup.sublist (List.take_sublist _ _)
    rw [(hpermp.map fun e => e.name).nodup_iff, map_name_groupsBy]
    exact List.nodup_dedup _
  refine ⟨List.length_take_le _ _, List.length_take_le _ _,
    List.Chain'.prefix hchainu htpu, List.Chain'.prefix hchainp htpp,
    hmapu, hmapp, ?_, ?_⟩
  · intro e he
    exact mem_groupsBy rows _ e
      (hpermu.subset (List.mem_of_mem_take he))
  · intro e he
    exact mem_groupsBy rows _ e
      (hpermp.subset (List.mem_of_mem_take he))

/-- C8 witness: the amended theorem at the tied two-user store. -/
theorem claim_C8_witness :
    ([entB, entA].length ≤ 10 ∧ [entP].length ≤ 10 ∧
    ([entB, entA].Chain' fun a b => optIntDescLe a.pageSum b.pageSum) ∧
    ([entP].Chain' fun a b => b.jobCount ≤ a.jobCount) ∧
    ([entB, entA].map fun e => e.name).Nodup ∧
    ([entP].map fun e => e.name).Nodup ∧
    (∀ e ∈ [entB, entA],
      e.jobCount = (rows8.filter fun r => r.userName = e.name).length ∧
      e.pageSum =
        sumPageCountSql (rows8.filter fun r => r.userName = e.name)) ∧
    (∀ e ∈ [entP],
      e.jobCount = (rows8.filter fun r => r.printerName = e.name).length ∧
      e.pageSum =
        sumPageCountSql (rows8.filter fun r => r.printerName = e.name))) :=
  claim_C8_amended rows8 [entB, entA] [entP]
    ⟨[entB, entA], by decide, by decide, rfl⟩
    ⟨[entP], by decide, by decide, rfl⟩

end PrintMonitor
